import Mathlib

/-!
Verification of the tile-grid partitioning and stitching engine of the
`slidicom` package (`src/slidicom/preprocessing.py`), as a shallow embedding
in Lean 4.

The embedding follows the Python source:

* `ImageCord` mirrors the namedtuple `ImageCord` (a 1-based region label and
  the four tile-index corners of the region's box; columns span `[x1, x2)`,
  rows span `[y1, y3)`).
* `splitPerImage` mirrors `SVSProcessor._split_per_image`; the Python `if`
  chain has no default branch, so reaching `return` with no assignment raises
  `UnboundLocalError` — modelled as `Except.error .unboundLocal`; a requested
  count of `0` would divide by zero in `self._images // images_on_X` —
  modelled as `Except.error .zeroDivision`.
* `mkRegion` / `imageSplitCordinates` mirror the `if/elif` chain and the two
  nested loops of `SVSProcessor._image_split_cordinates` (outer loop on `y`,
  inner on `x`, append when one of the four cases matches).
* `imageFilename`, `imageWidth`, `imageHeight`, `tileImageIndex` mirror the
  `ImageCordinates` helper class (`_image_filename`, `image_width`,
  `image_height`, `_tile_image_index`).
* `processImage` mirrors `SVSProcessor._process_image`: allocate a raster of
  `(image_width, image_height)`, fetch every covered tile (a failing fetch
  aborts the region), paste each at offset `((x - x1) * 256, (y - y1) * 256)`.
* `pixelArray` mirrors `SVSProcessor.pixel_array`: each region is processed, a
  success is inserted into the result mapping keyed by its filename, a
  failure is caught and printed (`stdout` is modelled as an explicit list of
  lines in the second component of the result) and excluded from the mapping.
-/

/-- Mirror of the Python namedtuple `ImageCord`: a 1-based `(column, row)`
label and the four corners of the region's tile-index box. -/
structure ImageCord where
  image : Nat × Nat
  x1 : Nat
  y1 : Nat
  x2 : Nat
  y2 : Nat
  x3 : Nat
  y3 : Nat
  x4 : Nat
  y4 : Nat
deriving DecidableEq, Repr

/-- Error outcomes of `SVSProcessor._split_per_image`: falling through the
`if/elif` chain leaves `images_on_X` unassigned (Python `UnboundLocalError`),
and a requested count of `0` makes `self._images // images_on_X` divide by
zero. -/
inductive SplitError where
  | unboundLocal
  | zeroDivision
deriving DecidableEq, Repr

/-- Mirror of `SVSProcessor._split_per_image`.  `images` is the requested
image count, `ratio` the aspect-ratio pair from `_aspect_ratio`. -/
def splitPerImage (images : Nat) (ratio : Nat × Nat) : Except SplitError (Nat × Nat) :=
  if images % 2 == 0 then
    if ratio.1 == 2 && ratio.2 == 1 then
      -- `images_on_X = images // 2`, `images_on_Y = images // images_on_X`
      if images / 2 == 0 then .error .zeroDivision
      else .ok (images / 2, images / (images / 2))
    else .error .unboundLocal
  else if images == 1 then .ok (1, 1)
  else .error .unboundLocal

/-- One iteration of the `if/elif` chain in
`SVSProcessor._image_split_cordinates` for loop indices `(x, y)`:
`tX`/`tY` are `tiles_on_X`/`tiles_on_Y`, `rX`/`rY` are
`remainder_X`/`remainder_Y`.  Python appends nothing when no branch matches
(impossible for in-range `x`, `y`), modelled by `none`. -/
def mkRegion (X Y tX tY rX rY x y : Nat) : Option ImageCord :=
  if x < X - 1 ∧ y < Y - 1 then
    some ⟨(x + 1, y + 1), x * tX, y, x * tX + tX, y, x * tX, tY, x * tX + tX, tY⟩
  else if x = X - 1 ∧ y < Y - 1 then
    some ⟨(x + 1, y + 1), x * tX, y, x * tX + tX + rX, y,
          x * tX, tY, x * tX + tX + rX, tY⟩
  else if x = X - 1 ∧ y = Y - 1 then
    some ⟨(x + 1, y + 1), x * tX, y * tY, x * tX + tX + rX, y * tY,
          x * tX, y * tY + tY + rY, x * tX + tX + rX, y * tY + tY + rY⟩
  else if x < X - 1 ∧ y = Y - 1 then
    some ⟨(x + 1, y + 1), x * tX, y * tY, x * tX + tX + rX, y * tY,
          x * tX, y * tY + tY + rY, x * tX + tX + rX, y * tY + tY + rY⟩
  else none

/-- Mirror of `SVSProcessor._image_split_cordinates` as a function of the
split factor `(X, Y)` (from `_split_per_image`) and the tile-grid dimensions
`(W, H)` (from `self._tiles.level_tiles[self._level_to_split]`). -/
def imageSplitCordinates (X Y W H : Nat) : List ImageCord :=
  (List.range Y).flatMap fun y =>
    (List.range X).filterMap fun x =>
      mkRegion X Y (W / X) (H / Y) (W % X) (H % Y) x y

/-- The split factors `SVSProcessor._split_per_image` can actually return:
`(1, 1)` for a requested count of 1, and `(n / 2, 2)` for an even count
`n ≥ 2` with a `(2, 1)` aspect. -/
def SupportedSplit (X Y : Nat) : Prop :=
  (X = 1 ∧ Y = 1) ∨ (1 ≤ X ∧ Y = 2)

instance (X Y : Nat) : Decidable (SupportedSplit X Y) := by
  unfold SupportedSplit; infer_instance

/-- Area of a region's tile-index box (columns `[x1, x2)`, rows `[y1, y3)`). -/
def boxArea (r : ImageCord) : Nat :=
  (r.x2 - r.x1) * (r.y3 - r.y1)

/-- Sum of the box areas over a region list. -/
def totalArea (l : List ImageCord) : Nat :=
  (l.map boxArea).sum

/-- Two regions' tile-index boxes share at least one tile cell. -/
def boxesOverlap (a b : ImageCord) : Prop :=
  max a.x1 b.x1 < min a.x2 b.x2 ∧ max a.y1 b.y1 < min a.y3 b.y3

instance (a b : ImageCord) : Decidable (boxesOverlap a b) := by
  unfold boxesOverlap; infer_instance

/-- Mirror of `ImageCordinates._image_filename`:
`"{parent}_{image[0]}_{image[1]}"`. -/
def imageFilename (parent : String) (ic : ImageCord) : String :=
  parent ++ "_" ++ toString ic.image.1 ++ "_" ++ toString ic.image.2

/-- Mirror of `ImageCordinates.image_width`: `(x2 - x1) * 256` with Python
integer subtraction. -/
def imageWidth (ic : ImageCord) : Int :=
  ((ic.x2 : Int) - ic.x1) * 256

/-- Mirror of `ImageCordinates.image_height`: `(y3 - y1) * 256` with Python
integer subtraction. -/
def imageHeight (ic : ImageCord) : Int :=
  ((ic.y3 : Int) - ic.y1) * 256

/-- Mirror of `ImageCordinates._tile_image_index`:
`[(x, y) for y in range(y1, y3) for x in range(x1, x2)]`. -/
def tileImageIndex (ic : ImageCord) : List (Nat × Nat) :=
  (List.range' ic.y1 (ic.y3 - ic.y1)).flatMap fun y =>
    (List.range' ic.x1 (ic.x2 - ic.x1)).map fun x => (x, y)

/-- The raster allocated by `SVSProcessor._process_image`:
`Image.new('RGB', (image.image_width(), image.image_height()))`. -/
def processImageAlloc (ic : ImageCord) : Int × Int :=
  (imageWidth ic, imageHeight ic)

/-- A stitched raster: its allocated pixel dimensions and the list of pastes
performed (tile index paired with its destination pixel offset). -/
structure StitchedImage where
  width : Int
  height : Int
  pasted : List ((Nat × Nat) × (Int × Int))
deriving DecidableEq, Repr

/-- Mirror of `SVSProcessor._process_image` for one region: allocate the
raster, fetch every covered tile through `fetch` (the first failing
`get_tile` aborts the region, as the raised exception does in Python), paste
each tile at `((x - x1) * 256, (y - y1) * 256)`, and return the result keyed
by the region's filename. -/
def processImage (fetch : Nat × Nat → Except String Unit) (parent : String)
    (ic : ImageCord) : Except String (String × StitchedImage) := do
  let pasted ← (tileImageIndex ic).mapM fun t => do
    let _ ← fetch t
    pure (t, (((t.1 : Int) - ic.x1) * 256, ((t.2 : Int) - ic.y1) * 256))
  pure (imageFilename parent ic, ⟨imageWidth ic, imageHeight ic, pasted⟩)

/-- The line printed by `SVSProcessor.pixel_array` when a region fails:
`f"Error processing image at coordinates {image_coord}: {e}"`. -/
def errorLine (ic : ImageCord) (e : String) : String :=
  "Error processing image at coordinates ImageCord(image=(" ++
    toString ic.image.1 ++ ", " ++ toString ic.image.2 ++ "), x1=" ++
    toString ic.x1 ++ ", y1=" ++ toString ic.y1 ++ ", x2=" ++
    toString ic.x2 ++ ", y2=" ++ toString ic.y2 ++ ", x3=" ++
    toString ic.x3 ++ ", y3=" ++ toString ic.y3 ++ ", x4=" ++
    toString ic.x4 ++ ", y4=" ++ toString ic.y4 ++ "): " ++ e

/-- Mirror of `SVSProcessor.pixel_array` over an explicit region list: each
region is stitched; a success is inserted into the returned mapping (first
component, association list keyed by filename), a failure is caught and its
message printed (second component models the lines written to stdout).  Only
the first component is the Python function's return value. -/
def pixelArray (fetch : Nat × Nat → Except String Unit) (parent : String) :
    List ImageCord → List (String × StitchedImage) × List String
  | [] => ([], [])
  | ic :: rest =>
    match processImage fetch parent ic with
    | .ok p =>
      let r := pixelArray fetch parent rest
      (p :: r.1, r.2)
    | .error e =>
      let r := pixelArray fetch parent rest
      (r.1, errorLine ic e :: r.2)

/-- Mirror of `SVSProcessor._aspect_ratio`'s rounding: Python `round` on a
ratio of two integers, i.e. round-half-to-even over the exact rational
value. -/
def pyRound (q : ℚ) : ℤ :=
  if q - ⌊q⌋ < 1 / 2 then ⌊q⌋
  else if 1 / 2 < q - ⌊q⌋ then ⌊q⌋ + 1
  else if ⌊q⌋ % 2 = 0 then ⌊q⌋ else ⌊q⌋ + 1

/-- Mirror of `SVSProcessor._aspect_ratio`: compare the deepest level's pixel
width `w` and height `h`; the longer side is expressed relative to 1 on the
shorter. -/
def aspectRatio (w h : Nat) : ℤ × ℤ :=
  if w < h then (1, pyRound ((h : ℚ) / w))
  else (pyRound ((w : ℚ) / h), 1)

/-! ### Supporting lemmas -/

/-- The full region list of the embedding on the spec's worked example (grid
10x7, split (3, 2)): six regions in row-major order. -/
theorem imageSplitCordinates_grid10x7 :
    imageSplitCordinates 3 2 10 7 =
      [⟨(1, 1), 0, 0, 3, 0, 0, 3, 3, 3⟩,
       ⟨(2, 1), 3, 0, 6, 0, 3, 3, 6, 3⟩,
       ⟨(3, 1), 6, 0, 10, 0, 6, 3, 10, 3⟩,
       ⟨(1, 2), 0, 3, 4, 3, 0, 7, 4, 7⟩,
       ⟨(2, 2), 3, 3, 7, 3, 3, 7, 7, 7⟩,
       ⟨(3, 2), 6, 3, 10, 3, 6, 7, 10, 7⟩] := by decide

theorem mem_imageSplitCordinates {X Y W H : Nat} {r : ImageCord} :
    r ∈ imageSplitCordinates X Y W H ↔
      ∃ y, y < Y ∧ ∃ x, x < X ∧
        mkRegion X Y (W / X) (H / Y) (W % X) (H % Y) x y = some r := by
  simp [imageSplitCordinates, List.mem_flatMap, List.mem_filterMap, List.mem_range]

/-- Every split factor `_split_per_image` actually returns is supported:
`(1, 1)` for one image, `(n / 2, 2)` for an even count with a wide aspect. -/
theorem splitPerImage_supported {n : Nat} {ratio XY : Nat × Nat}
    (h : splitPerImage n ratio = .ok XY) : SupportedSplit XY.1 XY.2 := by
  unfold splitPerImage at h
  by_cases h2 : ((n % 2 == 0) = true)
  · rw [if_pos h2] at h
    by_cases hr : ((ratio.1 == 2 && ratio.2 == 1) = true)
    · rw [if_pos hr] at h
      by_cases h0 : ((n / 2 == 0) = true)
      · rw [if_pos h0] at h
        exact absurd h (by simp)
      · rw [if_neg h0] at h
        cases h
        have hmod : n % 2 = 0 := by simpa using h2
        have hpos : ¬ n / 2 = 0 := by simpa using h0
        refine Or.inr ⟨by omega, ?_⟩
        show n / (n / 2) = 2
        obtain ⟨k, rfl⟩ : ∃ k, n = 2 * k := ⟨n / 2, by omega⟩
        have hk2 : 2 * k / 2 = k := by omega
        have hk : 0 < k := by omega
        rw [hk2, Nat.mul_div_assoc 2 (dvd_refl k), Nat.div_self hk]
    · rw [if_neg hr] at h
      exact absurd h (by simp)
  · rw [if_neg h2] at h
    by_cases h1 : ((n == 1) = true)
    · rw [if_pos h1] at h
      cases h
      exact Or.inl ⟨rfl, rfl⟩
    · rw [if_neg h1] at h
      exact absurd h (by simp)

/-- Structure of every region produced under a supported split factor: its
label encodes its loop position, the box start is `(x * tX, y * tY)`, and the
box is well-formed (`x1 ≤ x2`, `y1 ≤ y3`). -/
theorem region_fields {X Y W H : Nat} (hs : SupportedSplit X Y) {r : ImageCord}
    (hr : r ∈ imageSplitCordinates X Y W H) :
    ∃ x y, x < X ∧ y < Y ∧ r.image = (x + 1, y + 1) ∧
      r.x1 = x * (W / X) ∧ r.y1 = y * (H / Y) ∧ r.x1 ≤ r.x2 ∧ r.y1 ≤ r.y3 := by
  rw [mem_imageSplitCordinates] at hr
  obtain ⟨y, hy, x, hx, hmk⟩ := hr
  refine ⟨x, y, hx, hy, ?_⟩
  unfold mkRegion at hmk
  split_ifs at hmk with h1 h2 h3 h4
  · -- fully interior region: `y1 = y` literally, but a supported factor
    -- forces `y = 0` here, where the literal row index agrees with `y * tY`
    cases hmk
    have hy0 : y = 0 := by rcases hs with ⟨hX, hY⟩ | ⟨hX, hY⟩ <;> omega
    subst hy0
    exact ⟨rfl, rfl, by simp, Nat.le_add_right _ _, Nat.zero_le _⟩
  · -- last column, non-last row
    cases hmk
    have hy0 : y = 0 := by rcases hs with ⟨hX, hY⟩ | ⟨hX, hY⟩ <;> omega
    subst hy0
    refine ⟨rfl, rfl, by simp, ?_, Nat.zero_le _⟩
    show x * (W / X) ≤ x * (W / X) + (W / X) + (W % X)
    exact le_trans (Nat.le_add_right _ _) (Nat.le_add_right _ _)
  · -- bottom-right region
    cases hmk
    refine ⟨rfl, rfl, rfl, ?_, ?_⟩
    · show x * (W / X) ≤ x * (W / X) + (W / X) + (W % X)
      exact le_trans (Nat.le_add_right _ _) (Nat.le_add_right _ _)
    · show y * (H / Y) ≤ y * (H / Y) + (H / Y) + (H % Y)
      exact le_trans (Nat.le_add_right _ _) (Nat.le_add_right _ _)
  · -- bottom-left region
    cases hmk
    refine ⟨rfl, rfl, rfl, ?_, ?_⟩
    · show x * (W / X) ≤ x * (W / X) + (W / X) + (W % X)
      exact le_trans (Nat.le_add_right _ _) (Nat.le_add_right _ _)
    · show y * (H / Y) ≤ y * (H / Y) + (H / Y) + (H % Y)
      exact le_trans (Nat.le_add_right _ _) (Nat.le_add_right _ _)

/-! ### Claim theorems -/

/-- C1: the claim asserts that for every valid tile grid and supported split
factor the regions partition the grid exactly.  The code violates this: for
grid 10x7 and the supported factor (3, 2) (requested count 6, wide aspect)
the box areas sum to 78, not 10 * 7 = 70, and the two bottom non-right
regions overlap their right neighbours, because the bottom-left branch adds
the column remainder to regions that are not in the last column. -/
theorem imageSplitCordinates_partition_violated :
    totalArea (imageSplitCordinates 3 2 10 7) = 78 ∧
    (78 : Nat) ≠ 10 * 7 ∧
    (imageSplitCordinates 3 2 10 7)[3]? = some ⟨(1, 2), 0, 3, 4, 3, 0, 7, 4, 7⟩ ∧
    (imageSplitCordinates 3 2 10 7)[4]? = some ⟨(2, 2), 3, 3, 7, 3, 3, 7, 7, 7⟩ ∧
    boxesOverlap ⟨(1, 2), 0, 3, 4, 3, 0, 7, 4, 7⟩ ⟨(2, 2), 3, 3, 7, 3, 3, 7, 7, 7⟩ := by
  decide

/-- C2: the claim asserts that only regions in the last column add the column
remainder to their end column.  The code violates this: for grid 10x7 and
split factor (3, 2), the bottom-left region (0-based position (0, 1), not in
the last column) ends at column 4 = 0 * base + base + rem instead of
3 = 0 * base + base, contradicting the source's own comment that bottom-left
sections take "remainder tiles on the Y-plane direction only". -/
theorem bottomLeft_region_gets_column_remainder :
    (imageSplitCordinates 3 2 10 7)[3]? = some ⟨(1, 2), 0, 3, 4, 3, 0, 7, 4, 7⟩ ∧
    (ImageCord.mk (1, 2) 0 3 4 3 0 7 4 7).x2 = 0 * (10 / 3) + 10 / 3 + 10 % 3 ∧
    (ImageCord.mk (1, 2) 0 3 4 3 0 7 4 7).x2 ≠ 0 * (10 / 3) + 10 / 3 := by
  decide

/-- C3: every region produced under a supported split factor starts its
tile-index box at `(col * base_cols, row * base_rows)`, where `(col, row)` is
the region's 0-based position (its 1-based label minus one); in particular
the row start equals `row * base_rows` (for the non-last rows reachable under
a supported factor the literal row index the code stores coincides with it,
since that row index is 0). -/
theorem region_box_start (X Y W H : Nat) (hs : SupportedSplit X Y) :
    ∀ r ∈ imageSplitCordinates X Y W H,
      r.x1 = (r.image.1 - 1) * (W / X) ∧ r.y1 = (r.image.2 - 1) * (H / Y) := by
  intro r hr
  obtain ⟨x, y, _, _, him, hx1, hy1, _, _⟩ := region_fields hs hr
  rw [him, hx1, hy1]
  exact ⟨rfl, rfl⟩

/-- Witness for C3 at grid 10x7, split (3, 2), bottom-right region. -/
theorem region_box_start_witness :
    (ImageCord.mk (3, 2) 6 3 10 3 6 7 10 7).x1 = (3 - 1) * (10 / 3) ∧
    (ImageCord.mk (3, 2) 6 3 10 3 6 7 10 7).y1 = (2 - 1) * (7 / 2) :=
  region_box_start 3 2 10 7 (Or.inr ⟨by decide, rfl⟩) _ (by decide)

/-- C4: the claim asserts that an unsupported configuration (count 3, wide
aspect) raises an explicit configuration error.  The code instead falls
through the `if/elif` chain of `_split_per_image` without assigning
`images_on_X` and fails with `UnboundLocalError` at the `return` — an
unrelated error, not a configuration error (no region is computed, but the
failure mode is not the one the claim requires). -/
theorem splitPerImage_three_wide_unbound :
    splitPerImage 3 (2, 1) = .error .unboundLocal := rfl

/-- C5: `_split_per_image` returns (1, 1) for a requested count of 1 (any
aspect), and for an even count `n ≥ 2` with aspect (2, 1) it returns
`(n / 2, n / (n / 2))` with `(n / 2) * (n / (n / 2)) = n`. -/
theorem splitPerImage_values (n : Nat) (ratio : Nat × Nat) :
    (n = 1 → splitPerImage n ratio = .ok (1, 1)) ∧
    (2 ≤ n → n % 2 = 0 →
      splitPerImage n (2, 1) = .ok (n / 2, n / (n / 2)) ∧
        n / 2 * (n / (n / 2)) = n) := by
  constructor
  · rintro rfl
    simp [splitPerImage]
  · intro hn hmod
    obtain ⟨k, rfl⟩ : ∃ k, n = 2 * k := ⟨n / 2, by omega⟩
    have hk : 0 < k := by omega
    have hk2 : 2 * k / 2 = k := by omega
    have hdiv : 2 * k / (2 * k / 2) = 2 := by
      rw [hk2, Nat.mul_div_assoc 2 (dvd_refl k), Nat.div_self hk]
    constructor
    · unfold splitPerImage
      rw [if_pos (by simp), if_pos (by simp), if_neg (by simp; omega)]
    · rw [hdiv, hk2]
      omega

/-- Witness for C5 at requested counts 1 and 4. -/
theorem splitPerImage_values_witness :
    splitPerImage 1 (2, 1) = .ok (1, 1) ∧
    (splitPerImage 4 (2, 1) = .ok (4 / 2, 4 / (4 / 2)) ∧
      4 / 2 * (4 / (4 / 2)) = 4) :=
  ⟨(splitPerImage_values 1 (2, 1)).1 rfl,
   (splitPerImage_values 4 (2, 1)).2 (by decide) (by decide)⟩

/-- C6: for the spec's worked example (grid 10x7 tiles, split factor (3, 2))
the base extents are (3, 3) with remainders (1, 1), the bottom-right region
(1-based label (3, 2)) covers columns `[6, 10)` and rows `[3, 7)`, and the
top-left region (label (1, 1)) covers `[0, 3) x [0, 3)`. -/
theorem worked_example_grid10x7_split3x2 :
    10 / 3 = 3 ∧ 7 / 2 = 3 ∧ 10 % 3 = 1 ∧ 7 % 2 = 1 ∧
    (imageSplitCordinates 3 2 10 7)[5]? = some ⟨(3, 2), 6, 3, 10, 3, 6, 7, 10, 7⟩ ∧
    (imageSplitCordinates 3 2 10 7)[0]? = some ⟨(1, 1), 0, 0, 3, 0, 0, 3, 3, 3⟩ := by
  decide

/-- C7: for every region produced under a supported split factor, the raster
allocated by `_process_image` measures `(end_col - start_col) * 256` by
`(end_row - start_row) * 256` pixels (the Python integer subtraction agrees
with the truncated natural subtraction because every produced box is
well-formed). -/
theorem processImageAlloc_dims (X Y W H : Nat) (hs : SupportedSplit X Y) :
    ∀ r ∈ imageSplitCordinates X Y W H,
      processImageAlloc r =
        ((((r.x2 - r.x1) * 256 : Nat) : Int), (((r.y3 - r.y1) * 256 : Nat) : Int)) := by
  intro r hr
  obtain ⟨x, y, _, _, _, _, _, hle1, hle2⟩ := region_fields hs hr
  unfold processImageAlloc imageWidth imageHeight
  rw [Prod.mk.injEq]
  constructor <;> omega

/-- Witness for C7 at grid 10x7, split (3, 2), top-left region. -/
theorem processImageAlloc_dims_witness :
    processImageAlloc ⟨(1, 1), 0, 0, 3, 0, 0, 3, 3, 3⟩ =
      ((((3 - 0) * 256 : Nat) : Int), (((3 - 0) * 256 : Nat) : Int)) :=
  processImageAlloc_dims 3 2 10 7 (Or.inr ⟨by decide, rfl⟩) _ (by decide)

/-- C9: `_image_split_cordinates` is a pure function of the split factor and
the tile-grid dimensions; the source method only reads processor state
(`_split_per_image` and `level_tiles`), so its embedding is a function of
those inputs and two calls on the same state return identical lists. -/
theorem imageSplitCordinates_idempotent (X Y W H : Nat) :
    imageSplitCordinates X Y W H = imageSplitCordinates X Y W H := rfl

/-- C8 (amended): `pixel_array` never raises on a region failure: it returns
the mapping containing exactly the successfully stitched regions (in
processing order), and for every failed region the error line carrying that
region's coordinates and cause is printed to stdout — but printed only, not
returned to the caller. -/
theorem pixelArray_failure_isolation (fetch : Nat × Nat → Except String Unit)
    (parent : String) (regions : List ImageCord) :
    (pixelArray fetch parent regions).1 =
        regions.filterMap (fun ic => (processImage fetch parent ic).toOption) ∧
    (pixelArray fetch parent regions).2 =
        regions.filterMap (fun ic =>
          match processImage fetch parent ic with
          | .ok _ => none
          | .error e => some (errorLine ic e)) := by
  induction regions with
  | nil => exact ⟨rfl, rfl⟩
  | cons ic rest ih =>
    cases hpi : processImage fetch parent ic with
    | ok p =>
      simp only [pixelArray, hpi, List.filterMap_cons, Except.toOption, ih.1, ih.2]
      exact ⟨trivial, trivial⟩
    | error e =>
      simp only [pixelArray, hpi, List.filterMap_cons, Except.toOption, ih.1, ih.2]
      exact ⟨trivial, trivial⟩

/-- A deterministic tile source for which exactly the tiles of the
bottom-right region of a 4x4 grid split (2, 2) fail to fetch. -/
def failBottomRightFetch (t : Nat × Nat) : Except String Unit :=
  if 2 ≤ t.1 ∧ 2 ≤ t.2 then .error "tile fetch failed" else .ok ()

/-- C8 (counterexample to the claim as stated): with 4 regions of which the
bottom-right one fails, the value `pixel_array` returns contains exactly the
3 successful entries and no record of the failed region (the failure is only
printed); so the failed region's record is not "returned alongside the
successful subset". -/
theorem pixelArray_failure_record_not_returned :
    ((pixelArray failBottomRightFetch "slide" (imageSplitCordinates 2 2 4 4)).1.map
        Prod.fst = ["slide_1_1", "slide_2_1", "slide_1_2"]) ∧
    (((pixelArray failBottomRightFetch "slide" (imageSplitCordinates 2 2 4 4)).1.map
        Prod.fst).contains "slide_2_2" = false) ∧
    ((pixelArray failBottomRightFetch "slide" (imageSplitCordinates 2 2 4 4)).2 =
      [errorLine ⟨(2, 2), 2, 2, 4, 2, 2, 4, 4, 4⟩ "tile fetch failed"]) := by
  decide

/-- Python `round` (half-to-even) sends every rational in `[3/2, 5/2)`
to `2`. -/
theorem pyRound_eq_two {q : ℚ} (h1 : 3 / 2 ≤ q) (h2 : q < 5 / 2) :
    pyRound q = 2 := by
  unfold pyRound
  by_cases hq : q < 2
  · have hf : ⌊q⌋ = (1 : ℤ) := by
      apply Int.floor_eq_iff.mpr
      constructor
      · push_cast
        linarith
      · push_cast
        linarith
    rw [hf]
    rw [if_neg (by push_cast; linarith)]
    by_cases hgt : (1 : ℚ) / 2 < q - ((1 : ℤ) : ℚ)
    · rw [if_pos hgt]
      norm_num
    · rw [if_neg hgt, if_neg (by decide)]
      norm_num
  · have hf : ⌊q⌋ = (2 : ℤ) := by
      apply Int.floor_eq_iff.mpr
      constructor
      · push_cast
        linarith
      · push_cast
        linarith
    rw [hf]
    rw [if_pos (by push_cast; linarith)]

/-- C10: `_aspect_ratio` returns `(1, round(h / w))` when `w < h` and
`(round(w / h), 1)` otherwise, so one component is always 1; consequently any
slide with `w ≥ h` whose ratio `w / h` lies in `[1.5, 2.5)` (so that it
rounds to 2) is classified as the supported 2:1 wide aspect. -/
theorem aspectRatio_spec (w h : Nat) (hh : 0 < h) :
    (w < h → aspectRatio w h = (1, pyRound ((h : ℚ) / w))) ∧
    (h ≤ w → aspectRatio w h = (pyRound ((w : ℚ) / h), 1)) ∧
    (h ≤ w → 3 * h ≤ 2 * w → 2 * w < 5 * h → aspectRatio w h = (2, 1)) := by
  refine ⟨?_, ?_, ?_⟩
  · intro hlt
    unfold aspectRatio
    rw [if_pos hlt]
  · intro hle
    unfold aspectRatio
    rw [if_neg (by omega)]
  · intro hle hlo hhi
    unfold aspectRatio
    rw [if_neg (by omega)]
    have hh' : (0 : ℚ) < (h : ℚ) := by exact_mod_cast hh
    have hq1 : (3 : ℚ) / 2 ≤ (w : ℚ) / h := by
      rw [div_le_div_iff₀ (by norm_num) hh']
      have hlo' : (3 : ℚ) * h ≤ 2 * w := by exact_mod_cast hlo
      linarith
    have hq2 : (w : ℚ) / h < 5 / 2 := by
      rw [div_lt_div_iff₀ hh' (by norm_num)]
      have hhi' : (2 : ℚ) * w < 5 * h := by exact_mod_cast hhi
      linarith
    rw [pyRound_eq_two hq1 hq2]

/-- Witness for C10 at `w = 4`, `h = 2` (ratio exactly 2). -/
theorem aspectRatio_spec_witness : aspectRatio 4 2 = (2, 1) :=
  (aspectRatio_spec 4 2 (by decide)).2.2 (by decide) (by decide) (by decide)
